import Mathlib

/-!
Shallow embedding of the analysis-queue database core
(`lib/cuckoo/core/database.py`) and of the reporting engine
(`lib/cuckoo/core/reporter.py`).

Modelling conventions:
* timestamps are `Nat`; nullable columns are `Option`;
* a SQLAlchemy session/commit is modelled by explicit state passing over a
  `DB` value; whether a `commit()` call succeeds is an explicit boolean
  argument of each operation (the store may reject a commit for external
  reasons), except where the source's exception handling makes the outcome
  deterministic (the `IntegrityError` on a duplicate Sample insert, which
  happens exactly when a row with the same 5-hash tuple exists);
* a Python exception that escapes the operation (e.g. the `AttributeError`
  raised by attribute assignment on the `None` returned by a primary-key
  lookup that found no row) is modelled by `Except.error`;
* autoincrement primary keys are modelled as `max existing id + 1`;
* `Task.added_on` has column default `datetime.now()` which Python evaluates
  once, when the class body runs at import time; the model therefore carries
  that import-time value `importTime` and uses it for every created task,
  while the wall-clock time of the call is a separate (unused) argument.
-/

namespace Cuckoo

inductive Status
  | pending
  | processing
  | failure
  | success
deriving DecidableEq, Repr

/-- Row of the `tasks` table. -/
structure Task where
  id : Nat
  target : String
  category : String
  timeout : Int
  priority : Int
  custom : Option String
  machine : Option String
  package : Option String
  options : Option String
  platform : Option String
  added_on : Nat
  completed_on : Option Nat
  status : Status
  sample_id : Option Nat
deriving DecidableEq, Repr

/-- Row of the `guests` table (`task_id` is NOT NULL and UNIQUE). -/
structure Guest where
  id : Nat
  name : String
  label : String
  manager : String
  started_on : Nat
  shutdown_on : Option Nat
  task_id : Nat
deriving DecidableEq, Repr

/-- Row of the `samples` table (unique index over the five hash columns). -/
structure Sample where
  id : Nat
  file_size : Int
  file_type : String
  md5 : String
  crc32 : String
  sha1 : String
  sha256 : String
  sha512 : String
  ssdeep : Option String
deriving DecidableEq, Repr

/-- The persistent store: the three tables. -/
structure DB where
  tasks : List Task
  guests : List Guest
  samples : List Sample
deriving DecidableEq, Repr

/-- A `File` object as consumed by `Database.add`: path, the five hashes,
size, type and fuzzy hash. -/
structure FileObj where
  file_path : String
  md5 : String
  crc32 : String
  sha1 : String
  sha256 : String
  sha512 : String
  file_size : Int
  file_type : String
  ssdeep : Option String
deriving DecidableEq, Repr

/-- A Python exception escaping an operation uncaught. -/
inductive PyError
  | attributeError
deriving DecidableEq, Repr

def maxId (ids : List Nat) : Nat := ids.foldl max 0

def freshTaskId (db : DB) : Nat := maxId (db.tasks.map Task.id) + 1

def freshGuestId (db : DB) : Nat := maxId (db.guests.map Guest.id) + 1

def freshSampleId (db : DB) : Nat := maxId (db.samples.map Sample.id) + 1

/-- The five-hash tuple of `s` coincides with that of the submitted file:
exactly the condition under which inserting a new Sample for `obj` violates
the unique `hash_index` and `commit()` raises `IntegrityError`. -/
def sampleMatches (s : Sample) (obj : FileObj) : Bool :=
  s.md5 == obj.md5 && s.crc32 == obj.crc32 && s.sha1 == obj.sha1 &&
    s.sha256 == obj.sha256 && s.sha512 == obj.sha512

/-- `Sample(md5=..., crc32=..., sha1=..., sha256=..., sha512=..., file_size=...,
file_type=..., ssdeep=...)` with the autoincrement id it receives on insert. -/
def newSampleOf (db : DB) (obj : FileObj) : Sample :=
  { id := freshSampleId db
    file_size := obj.file_size
    file_type := obj.file_type
    md5 := obj.md5
    crc32 := obj.crc32
    sha1 := obj.sha1
    sha256 := obj.sha256
    sha512 := obj.sha512
    ssdeep := obj.ssdeep }

/-- `row.status = status` for the row with the given primary key. -/
def setTaskStatus (tasks : List Task) (tid : Nat) (st : Status) : List Task :=
  tasks.map fun t => if t.id == tid then { t with status := st } else t

/-- `t` sorts no later than `u` under `ORDER BY priority desc, added_on`. -/
def claimBefore (t u : Task) : Prop :=
  u.priority < t.priority ∨ (u.priority = t.priority ∧ t.added_on ≤ u.added_on)

/-- Of two rows, the one the `ORDER BY priority desc, added_on` places first
(the accumulator `b` wins full ties, keeping the earlier row). -/
def pickBetter (b t : Task) : Task :=
  if b.priority < t.priority ∨ (t.priority = b.priority ∧ t.added_on < b.added_on)
    then t else b

/-- Scan of the task table computing
`query(Task).filter(Task.status == "pending").order_by("priority desc, added_on").first()`. -/
def selectFrom : Option Task → List Task → Option Task
  | acc, [] => acc
  | acc, t :: ts =>
      if t.status = Status.pending then
        match acc with
        | none => selectFrom (some t) ts
        | some b => selectFrom (some (pickBetter b t)) ts
      else selectFrom acc ts

/-- First pending task under `ORDER BY priority desc, added_on`. -/
def selectPending (tasks : List Task) : Option Task := selectFrom none tasks

/-- `Database.fetch_and_process`: select the first pending row in claim
order, mark it `processing`, commit; on commit failure roll back and
return `None`. -/
def fetch_and_process (db : DB) (commitOk : Bool) : Option Task × DB :=
  match selectPending db.tasks with
  | none => (none, db)
  | some row =>
      if commitOk then
        (some { row with status := Status.processing },
         { db with tasks := setTaskStatus db.tasks row.id Status.processing })
      else (none, db)

/-- `Database.complete`: look the task up by primary key (attribute
assignment on a missing row raises `AttributeError`), set the terminal
status and `completed_on = datetime.now()`, commit; a failed commit rolls
back and returns `False`. -/
def complete (db : DB) (task_id : Nat) (success : Bool) (now : Nat)
    (commitOk : Bool) : Except PyError (Bool × DB) :=
  match db.tasks.find? (fun t => t.id == task_id) with
  | none => Except.error PyError.attributeError
  | some _ =>
      let st := if success then Status.success else Status.failure
      if commitOk then
        Except.ok (true,
          { db with
              tasks := db.tasks.map fun t =>
                if t.id == task_id then
                  { t with status := st, completed_on := some now }
                else t })
      else Except.ok (false, db)

/-- `Database.guest_start`: build a Guest with `started_on = datetime.now()`
and attach it to the task (a missing task raises `AttributeError`; if the
task already has a guest, the flush must null the old guest's NOT NULL
`task_id`, so the commit fails and is rolled back); on a successful commit
return the new guest's id. -/
def guest_start (db : DB) (task_id : Nat) (name label manager : String)
    (now : Nat) (commitOk : Bool) : Except PyError (Option Nat × DB) :=
  match db.tasks.find? (fun t => t.id == task_id) with
  | none => Except.error PyError.attributeError
  | some _ =>
      if db.guests.any (fun g => g.task_id == task_id) then
        Except.ok (none, db)
      else if commitOk then
        let g : Guest :=
          { id := freshGuestId db, name := name, label := label
            manager := manager, started_on := now, shutdown_on := none
            task_id := task_id }
        Except.ok (some g.id, { db with guests := db.guests ++ [g] })
      else
        Except.ok (none, db)

/-- `Database.guest_stop`: set `shutdown_on = datetime.now()` on the guest
looked up by primary key (a missing guest raises `AttributeError`); a
failed commit is rolled back and the function still returns normally. -/
def guest_stop (db : DB) (guest_id : Nat) (now : Nat) (commitOk : Bool) :
    Except PyError DB :=
  match db.guests.find? (fun g => g.id == guest_id) with
  | none => Except.error PyError.attributeError
  | some _ =>
      if commitOk then
        Except.ok
          { db with
              guests := db.guests.map fun g =>
                if g.id == guest_id then { g with shutdown_on := some now }
                else g }
      else Except.ok db

/-- Sample phase of `Database.add` for a `File`: insert the new Sample and
commit; on `IntegrityError` (a row with the identical 5-hash tuple exists)
roll back and re-query by `Sample.md5` alone, taking `.first()`.
Returns the sample id the task will reference and the store after this
first, separately committed transaction. -/
def sampleIdForFile (db : DB) (obj : FileObj) : Nat × DB :=
  if db.samples.any (fun s => sampleMatches s obj) then
    (((db.samples.find? (fun s => s.md5 == obj.md5)).map Sample.id).getD 0, db)
  else
    let s := newSampleOf db obj
    (s.id, { db with samples := db.samples ++ [s] })

/-- The Task row `Database.add` builds: metadata copied from the arguments,
`added_on` filled by the column default — the `datetime.now()` value that
was computed once at import time. -/
def newTaskRow (importTime : Nat) (db : DB) (target category : String)
    (timeout : Int) (package options : Option String) (priority : Int)
    (custom machine platform : Option String) (sample_id : Option Nat) :
    Task :=
  { id := freshTaskId db
    target := target
    category := category
    timeout := timeout
    priority := priority
    custom := custom
    machine := machine
    package := package
    options := options
    platform := platform
    added_on := importTime
    completed_on := none
    status := Status.pending
    sample_id := sample_id }

/-- `Database.add` on a `File`: the deduplicating sample transaction, then a
second transaction inserting the Task; if the second commit fails it is
rolled back and `None` is returned. `now` is the wall-clock time of the
call; the source never reads the clock here, so it is unused. -/
def addFile (importTime : Nat) (db : DB) (obj : FileObj) (timeout : Int)
    (package options : Option String) (priority : Int)
    (custom machine platform : Option String) (now : Nat)
    (taskCommitOk : Bool) : Option Nat × DB :=
  let sd := sampleIdForFile db obj
  let task := newTaskRow importTime sd.2 obj.file_path "file" timeout package
    options priority custom machine platform (some sd.1)
  if taskCommitOk then
    (some task.id, { sd.2 with tasks := sd.2.tasks ++ [task] })
  else
    (none, sd.2)

/-- `Database.add` on a `URL`: a single transaction inserting the Task;
commit failure rolls back and returns `None`. `now` is the wall-clock time
of the call, unused by the source. -/
def addUrl (importTime : Nat) (db : DB) (url : String) (timeout : Int)
    (package options : Option String) (priority : Int)
    (custom machine platform : Option String) (now : Nat)
    (commitOk : Bool) : Option Nat × DB :=
  let task := newTaskRow importTime db url "url" timeout package options
    priority custom machine platform none
  if commitOk then
    (some task.id, { db with tasks := db.tasks ++ [task] })
  else
    (none, db)

/-- `Database.add_path`: reject an empty or nonexistent path before touching
the store, else submit `File(file_path)`. The filesystem is modelled as the
list `fs` of existing paths, and the fingerprinting collaborator as
`hashOf`. -/
def add_path (importTime : Nat) (fs : List String)
    (hashOf : String → FileObj) (db : DB) (file_path : String)
    (timeout : Int) (package options : Option String) (priority : Int)
    (custom machine platform : Option String) (now : Nat)
    (taskCommitOk : Bool) : Option Nat × DB :=
  if file_path == "" || !(fs.contains file_path) then
    (none, db)
  else
    addFile importTime db (hashOf file_path) timeout package options priority
      custom machine platform now taskCommitOk

/-! ### Reporting engine (`lib/cuckoo/core/reporter.py`)

Python objects live on a heap of mutable cells; the caller's results
dictionary is a cell address. `copy.deepcopy` reads the cell and allocates a
fresh cell holding an equal value with no sharing; a module's `run` mutates
the object it is handed in place. -/

/-- A loaded reporting module: its `order` attribute and the in-place
mutation its `run` method performs on the results object handed to it. -/
structure RepModule (α : Type) where
  order : Int
  mutate : α → α

/-- A heap of mutable cells, addressed by position. -/
structure Heap (α : Type) where
  cells : List α
deriving DecidableEq, Repr

def Heap.read {α : Type} (h : Heap α) (a : Nat) : Option α := h.cells[a]?

/-- Allocate a fresh cell; returns the heap and the new address. -/
def Heap.alloc {α : Type} (h : Heap α) (v : α) : Heap α × Nat :=
  (⟨h.cells ++ [v]⟩, h.cells.length)

def Heap.write {α : Type} (h : Heap α) (a : Nat) (v : α) : Heap α :=
  ⟨h.cells.set a v⟩

/-- `Reporter._run_report` for one module: `current.run(copy.deepcopy(results))`
— read the caller's results, allocate a deep copy, let the module mutate the
copy. Besides the heap it returns, for observation, the module's `order` and
the value the module was handed. -/
def runReport {α : Type} (m : RepModule α) (h : Heap α) (resultsAddr : Nat) :
    Heap α × Option (Int × α) :=
  match h.read resultsAddr with
  | none => (h, none)
  | some v =>
      let al := h.alloc v
      (al.1.write al.2 (m.mutate v), some (m.order, v))

/-- Run the modules left to right, threading the heap and collecting the
observation trace. -/
def runModsAux {α : Type} (h : Heap α) (resultsAddr : Nat) :
    List (RepModule α) → Heap α × List (Int × α)
  | [] => (h, [])
  | m :: ms =>
      let st := runReport m h resultsAddr
      let rest := runModsAux st.1 resultsAddr ms
      (rest.1, st.2.toList ++ rest.2)

/-- `Reporter.run`: sort the loaded modules by their `order` attribute
(Python's stable ascending sort) and execute each in turn on a deep copy of
the caller's results. -/
def reporterRun {α : Type} (mods : List (RepModule α)) (h : Heap α)
    (resultsAddr : Nat) : Heap α × List (Int × α) :=
  runModsAux h resultsAddr
    (mods.insertionSort fun a b => a.order ≤ b.order)

/-! ### Lemmas about the claim-order selection -/

lemma claimBefore_refl (t : Task) : claimBefore t t := by
  right; exact ⟨rfl, le_refl _⟩

lemma claimBefore_trans {a b c : Task} (hab : claimBefore a b)
    (hbc : claimBefore b c) : claimBefore a c := by
  rcases hab with h | ⟨he, hle⟩ <;> rcases hbc with h' | ⟨he', hle'⟩
  · exact Or.inl (lt_trans h' h)
  · exact Or.inl (he' ▸ h)
  · exact Or.inl (he ▸ h')
  · exact Or.inr ⟨he'.trans he, hle.trans hle'⟩

lemma pickBetter_cases (b t : Task) :
    pickBetter b t = b ∨ pickBetter b t = t := by
  unfold pickBetter; split
  · exact Or.inr rfl
  · exact Or.inl rfl

lemma claimBefore_pickBetter_left (b t : Task) :
    claimBefore (pickBetter b t) b := by
  unfold pickBetter; split
  · rename_i hc
    rcases hc with h | ⟨he, hlt⟩
    · exact Or.inl h
    · exact Or.inr ⟨he.symm, le_of_lt hlt⟩
  · exact claimBefore_refl b

lemma claimBefore_pickBetter_right (b t : Task) :
    claimBefore (pickBetter b t) t := by
  unfold pickBetter; split
  · exact claimBefore_refl t
  · rename_i hc
    push_neg at hc
    rcases lt_or_eq_of_le hc.1 with h | h
    · exact Or.inl h
    · exact Or.inr ⟨h, hc.2 h⟩

lemma selectFrom_some_spec :
    ∀ (ts : List Task) (b r : Task), selectFrom (some b) ts = some r →
      (r = b ∨ (r ∈ ts ∧ r.status = Status.pending)) ∧ claimBefore r b ∧
        ∀ u ∈ ts, u.status = Status.pending → claimBefore r u
  | [], b, r, h => by
      simp only [selectFrom, Option.some.injEq] at h
      subst h
      exact ⟨Or.inl rfl, claimBefore_refl b, by simp⟩
  | t :: ts, b, r, h => by
      by_cases hp : t.status = Status.pending
      · simp only [selectFrom, hp, if_pos] at h
        obtain ⟨hmem, hcb, hall⟩ := selectFrom_some_spec ts (pickBetter b t) r h
        refine ⟨?_, claimBefore_trans hcb (claimBefore_pickBetter_left b t), ?_⟩
        · rcases hmem with he | ⟨hin, hst⟩
          · rcases pickBetter_cases b t with hb | ht
            · exact Or.inl (he.trans hb)
            · exact Or.inr ⟨by simp [he, ht], by rw [he, ht]; exact hp⟩
          · exact Or.inr ⟨List.mem_cons_of_mem _ hin, hst⟩
        · intro u hu hup
          rcases List.mem_cons.mp hu with he | hin
          · exact he ▸ claimBefore_trans hcb (claimBefore_pickBetter_right b t)
          · exact hall u hin hup
      · simp only [selectFrom, hp, if_neg, not_false_iff] at h
        obtain ⟨hmem, hcb, hall⟩ := selectFrom_some_spec ts b r h
        refine ⟨?_, hcb, ?_⟩
        · rcases hmem with he | ⟨hin, hst⟩
          · exact Or.inl he
          · exact Or.inr ⟨List.mem_cons_of_mem _ hin, hst⟩
        · intro u hu hup
          rcases List.mem_cons.mp hu with he | hin
          · exact absurd (he ▸ hup) hp
          · exact hall u hin hup

lemma selectPending_spec :
    ∀ (ts : List Task) (r : Task), selectPending ts = some r →
      r ∈ ts ∧ r.status = Status.pending ∧
        ∀ u ∈ ts, u.status = Status.pending → claimBefore r u
  | [], r, h => by simp [selectPending, selectFrom] at h
  | t :: ts, r, h => by
      by_cases hp : t.status = Status.pending
      · simp only [selectPending, selectFrom, hp, if_pos] at h
        obtain ⟨hmem, hcb, hall⟩ := selectFrom_some_spec ts t r h
        refine ⟨?_, ?_, ?_⟩
        · rcases hmem with he | ⟨hin, _⟩
          · simp [he]
          · exact List.mem_cons_of_mem _ hin
        · rcases hmem with he | ⟨_, hst⟩
          · exact he ▸ hp
          · exact hst
        · intro u hu hup
          rcases List.mem_cons.mp hu with he | hin
          · exact he ▸ hcb
          · exact hall u hin hup
      · simp only [selectPending, selectFrom, hp, if_neg, not_false_iff] at h
        obtain ⟨hin, hst, hall⟩ := selectPending_spec ts r h
        refine ⟨List.mem_cons_of_mem _ hin, hst, ?_⟩
        intro u hu hup
        rcases List.mem_cons.mp hu with he | hin'
        · exact absurd (he ▸ hup) hp
        · exact hall u hin' hup

/-- **C1** `fetch_and_process` selects, among all tasks with status
`pending`, one with the highest `priority`, breaking ties by earliest
`added_on`, sets its status to `processing` in the same committed
transaction, and returns it; when the commit fails it rolls back and
returns `none` with the store unchanged, and whenever it returns a task
that task's row was durably set to `processing` in the resulting store. -/
theorem fetch_and_process_claims_best (db : DB) (commitOk : Bool) :
    fetch_and_process db false = (none, db) ∧
    ∀ t db', fetch_and_process db commitOk = (some t, db') →
      commitOk = true ∧
      t.status = Status.processing ∧
      (∃ t0, t0 ∈ db.tasks ∧ t0.status = Status.pending ∧
        t = { t0 with status := Status.processing } ∧
        ∀ u ∈ db.tasks, u.status = Status.pending → claimBefore t0 u) ∧
      db'.tasks = setTaskStatus db.tasks t.id Status.processing ∧
      ∀ u ∈ db'.tasks, u.id = t.id → u.status = Status.processing := by
  constructor
  · unfold fetch_and_process
    cases selectPending db.tasks <;> simp
  · intro t db' h
    unfold fetch_and_process at h
    cases hsel : selectPending db.tasks with
    | none => rw [hsel] at h; exact absurd (congrArg Prod.fst h) (by simp)
    | some row =>
        rw [hsel] at h
        cases hc : commitOk with
        | false => rw [hc] at h; exact absurd (congrArg Prod.fst h) (by simp)
        | true =>
            rw [hc] at h
            simp only [if_pos] at h
            have ht : t = { row with status := Status.processing } := by
              have := congrArg Prod.fst h; simpa using this.symm
            have hdb :
                db' = { db with
                          tasks := setTaskStatus db.tasks row.id Status.processing } := by
              have := congrArg Prod.snd h; simpa using this.symm
            subst ht; subst hdb
            obtain ⟨hin, hst, hall⟩ := selectPending_spec db.tasks row hsel
            refine ⟨rfl, rfl, ⟨row, hin, hst, rfl, hall⟩, rfl, ?_⟩
            intro u hu hid
            simp only [setTaskStatus, List.mem_map] at hu
            obtain ⟨v, _, hv⟩ := hu
            by_cases hvid : v.id = row.id
            · have hb : (v.id == row.id) = true := by simpa using hvid
              rw [hb] at hv; simp only [if_pos] at hv; rw [← hv]
            · have hb : (v.id == row.id) = false := by simpa using hvid
              rw [hb] at hv
              simp only [Bool.false_eq_true, if_neg, not_false_iff] at hv
              exact absurd (hv ▸ hid) hvid

/-! ### Concrete fixtures -/

/-- Pending url-category task with priority 5, added at time 1. -/
def taskA : Task :=
  { id := 1, target := "A", category := "url", timeout := 0, priority := 5
    custom := none, machine := none, package := none, options := none
    platform := none, added_on := 1, completed_on := none
    status := Status.pending, sample_id := none }

/-- Pending task with priority 10, added at time 2. -/
def taskB : Task := { taskA with id := 2, target := "B", priority := 10, added_on := 2 }

/-- Pending task with priority 10, added at time 1. -/
def taskC : Task := { taskA with id := 3, target := "C", priority := 10, added_on := 1 }

def dbC1 : DB := ⟨[taskA, taskB, taskC], [], []⟩

def taskCproc : Task := { taskC with status := Status.processing }

def dbC1' : DB := ⟨[taskA, taskB, taskCproc], [], []⟩

/-- Witness for C1 at the spec's own example A(p5,t1), B(p10,t2), C(p10,t1):
the claimed task is C. -/
theorem fetch_and_process_claims_best_witness :
    true = true ∧ taskCproc.status = Status.processing ∧
    (∃ t0, t0 ∈ dbC1.tasks ∧ t0.status = Status.pending ∧
      taskCproc = { t0 with status := Status.processing } ∧
      ∀ u ∈ dbC1.tasks, u.status = Status.pending → claimBefore t0 u) ∧
    dbC1'.tasks = setTaskStatus dbC1.tasks taskCproc.id Status.processing ∧
    (∀ u ∈ dbC1'.tasks, u.id = taskCproc.id → u.status = Status.processing) :=
  (fetch_and_process_claims_best dbC1 true).2 taskCproc dbC1' (by decide)

/-- **C4** `complete` fails (the primary-key lookup yields no row and the
attribute assignment raises) when no task with the given id exists; when the
task exists and the commit succeeds it sets the status to `success` when
`success` is true and `failure` otherwise, and sets `completed_on` to the
non-null current timestamp. -/
theorem complete_not_found_or_sets (db : DB) (task_id : Nat) (success : Bool)
    (now : Nat) (commitOk : Bool) :
    ((∀ t ∈ db.tasks, t.id ≠ task_id) →
      complete db task_id success now commitOk
        = Except.error PyError.attributeError) ∧
    (∀ t0, t0 ∈ db.tasks → t0.id = task_id → commitOk = true →
      ∃ db', complete db task_id success now commitOk = Except.ok (true, db') ∧
        ∀ u ∈ db'.tasks, u.id = task_id →
          u.status = (if success then Status.success else Status.failure) ∧
          u.completed_on = some now) := by
  constructor
  · intro hnone
    have hf : db.tasks.find? (fun t => t.id == task_id) = none := by
      rw [List.find?_eq_none]
      intro t ht
      simpa using hnone t ht
    simp [complete, hf]
  · intro t0 ht0 hid hc
    subst hc
    cases hf : db.tasks.find? (fun t => t.id == task_id) with
    | none =>
        rw [List.find?_eq_none] at hf
        exact absurd (by simpa using hid) (hf t0 ht0)
    | some w =>
        refine ⟨{ db with
                    tasks := db.tasks.map fun t =>
                      if t.id == task_id then
                        { t with
                            status := if success then Status.success
                              else Status.failure
                            completed_on := some now }
                      else t }, by simp [complete, hf], ?_⟩
        intro u hu huid
        simp only [List.mem_map] at hu
        obtain ⟨v, _, hv⟩ := hu
        by_cases hvid : v.id = task_id
        · have hb : (v.id == task_id) = true := by simpa using hvid
          rw [hb] at hv
          simp only [if_pos] at hv
          exact ⟨by rw [← hv], by rw [← hv]⟩
        · have hb : (v.id == task_id) = false := by simpa using hvid
          rw [hb] at hv
          simp only [Bool.false_eq_true, if_neg, not_false_iff] at hv
          exact absurd (hv ▸ huid) hvid

/-- Pending task used by the `complete` witnesses. -/
def taskP : Task := { taskA with id := 7, target := "P", added_on := 3 }

/-- Witness for C4: on an empty store `complete` fails; on a store holding
task 7 it reports success and leaves status `success`, `completed_on = 9`. -/
theorem complete_not_found_or_sets_witness :
    complete (DB.mk [] [] []) 1 true 9 true
      = Except.error PyError.attributeError ∧
    ∃ db', complete (DB.mk [taskP] [] []) 7 true 9 true
        = Except.ok (true, db') ∧
      ∀ u ∈ db'.tasks, u.id = 7 →
        u.status = (if true then Status.success else Status.failure) ∧
        u.completed_on = some 9 :=
  ⟨(complete_not_found_or_sets (DB.mk [] [] []) 1 true 9 true).1 (by simp),
   (complete_not_found_or_sets (DB.mk [taskP] [] []) 7 true 9 true).2 taskP
     (by simp) rfl rfl⟩

lemma setTaskStatus_preserves_completed_on (ts : List Task) (tid : Nat)
    (st : Status) :
    (setTaskStatus ts tid st).map Task.completed_on
      = ts.map Task.completed_on := by
  induction ts with
  | nil => rfl
  | cons t ts ih =>
      simp only [setTaskStatus, List.map_cons] at ih ⊢
      rw [ih]
      congr 1
      split <;> rfl

/-- Equality of `Except` values is decidable when both components are. -/
instance {ε α : Type} [DecidableEq ε] [DecidableEq α] :
    DecidableEq (Except ε α) := fun a b =>
  match a, b with
  | Except.error e, Except.error f =>
      decidable_of_iff (e = f) ⟨fun h => by rw [h], fun h => by simpa using h⟩
  | Except.error _, Except.ok _ => Decidable.isFalse (fun h => by simp at h)
  | Except.ok _, Except.error _ => Decidable.isFalse (fun h => by simp at h)
  | Except.ok x, Except.ok y =>
      decidable_of_iff (x = y) ⟨fun h => by rw [h], fun h => by simpa using h⟩

/-- Terminal task: status `success`, `completed_on = 5`. -/
def taskDone : Task :=
  { taskA with
      id := 1
      target := "D"
      status := Status.success
      completed_on := some 5 }

def dbDone9 : DB :=
  ⟨[{ taskDone with status := Status.success, completed_on := some 9 }], [], []⟩

/-- Counterexample to C5: task 1 is already terminal (`success`,
`completed_on = 5`); a second `complete` at time 9 changes `completed_on`
to 9, so `completed_on` is not left unchanged. -/
theorem complete_overwrites_completed_on_cex :
    taskDone.status = Status.success ∧ taskDone.completed_on = some 5 ∧
    complete (DB.mk [taskDone] [] []) 1 true 9 true
      = Except.ok (true, dbDone9) ∧
    dbDone9.tasks.map Task.completed_on = [some 9] ∧
    some 9 ≠ some (5 : Nat) := by decide

/-- **C5** (amended) `completed_on` is null at task creation, is untouched
by the claim step, and is set to the current timestamp by a successful
`complete` — including when the task is already terminal, in which case the
earlier value is overwritten rather than left unchanged. -/
theorem completed_on_lifecycle :
    (∀ it db url timeout p o pr c m pf now, ∃ task,
      (addUrl it db url timeout p o pr c m pf now true).2.tasks
        = db.tasks ++ [task] ∧
      task.completed_on = none ∧ task.status = Status.pending) ∧
    (∀ it db obj timeout p o pr c m pf now, ∃ task,
      (addFile it db obj timeout p o pr c m pf now true).2.tasks
        = db.tasks ++ [task] ∧
      task.completed_on = none ∧ task.status = Status.pending) ∧
    (∀ db co, (fetch_and_process db co).2.tasks.map Task.completed_on
      = db.tasks.map Task.completed_on) ∧
    (∀ db tid s now db', complete db tid s now true = Except.ok (true, db') →
      ∀ u ∈ db'.tasks, u.id = tid → u.completed_on = some now) := by
  refine ⟨?_, ?_, ?_, ?_⟩
  · intro it db url timeout p o pr c m pf now
    exact ⟨_, rfl, rfl, rfl⟩
  · intro it db obj timeout p o pr c m pf now
    unfold addFile sampleIdForFile
    cases h : db.samples.any (fun s => sampleMatches s obj) <;>
      · simp only [h]
        exact ⟨_, rfl, rfl, rfl⟩
  · intro db co
    unfold fetch_and_process
    cases selectPending db.tasks with
    | none => rfl
    | some row =>
        cases co with
        | false => rfl
        | true => simpa using setTaskStatus_preserves_completed_on db.tasks row.id Status.processing
  · intro db tid s now db' h
    cases hf : db.tasks.find? (fun t => t.id == tid) with
    | none => simp [complete, hf] at h
    | some w =>
        simp only [complete, hf, if_pos, Except.ok.injEq, Prod.mk.injEq,
          true_and] at h
        subst h
        intro u hu huid
        simp only [List.mem_map] at hu
        obtain ⟨v, _, hv⟩ := hu
        by_cases hvid : v.id = tid
        · have hb : (v.id == tid) = true := by simpa using hvid
          rw [hb] at hv
          simp only [if_pos] at hv
          rw [← hv]
        · have hb : (v.id == tid) = false := by simpa using hvid
          rw [hb] at hv
          simp only [Bool.false_eq_true, if_neg, not_false_iff] at hv
          exact absurd (hv ▸ huid) hvid

/-- Witness for C5 (amended): concrete creation, claim-step preservation and
terminal overwrite. -/
theorem completed_on_lifecycle_witness :
    (∃ task, (addUrl 0 (DB.mk [] [] []) "u" 0 none none 1 none none none 0
        true).2.tasks = (DB.mk [] [] []).tasks ++ [task] ∧
      task.completed_on = none ∧ task.status = Status.pending) ∧
    ((fetch_and_process (DB.mk [taskDone] [] []) true).2.tasks.map
        Task.completed_on = (DB.mk [taskDone] [] []).tasks.map
        Task.completed_on) ∧
    (∀ u ∈ dbDone9.tasks, u.id = 1 → u.completed_on = some 9) :=
  ⟨completed_on_lifecycle.1 0 (DB.mk [] [] []) "u" 0 none none 1 none none
     none 0,
   completed_on_lifecycle.2.2.1 (DB.mk [taskDone] [] []) true,
   completed_on_lifecycle.2.2.2 (DB.mk [taskDone] [] []) 1 true 9 dbDone9
     (by decide)⟩

def dbT1 : DB :=
  (addUrl 100 (DB.mk [] [] []) "u1" 0 none none 1 none none none 1 true).2

def dbT2 : DB :=
  (addUrl 100 dbT1 "u2" 0 none none 1 none none none 2 true).2

/-- **C6** evaluation at the failing input: with the schema imported at time
100, two tasks created at wall-clock times 1 and 2 both get
`added_on = 100` — the column default `datetime.now()` was evaluated once at
class-definition time, so creation time never reaches `added_on` and tasks
created at different times share the same value. -/
theorem added_on_is_import_time :
    dbT2.tasks.length = 2 ∧
    dbT2.tasks.map Task.added_on = [100, 100] := by decide

/-! ### Guest tracking and path validation -/

/-- **C7** `guest_start` fails and leaves no partial Guest row when the task
does not exist (the lookup raises) or when the task already has a linked
Guest (the flush violates the Guest constraints, the commit fails and is
rolled back); on success the task has exactly one linked Guest row and a
second `guest_start` for the same task fails, leaving the store unchanged. -/
theorem guest_start_unique (db : DB) (task_id : Nat)
    (name label manager : String) (now : Nat) (commitOk : Bool) :
    ((∀ t ∈ db.tasks, t.id ≠ task_id) →
      guest_start db task_id name label manager now commitOk
        = Except.error PyError.attributeError) ∧
    (∀ t0, t0 ∈ db.tasks → t0.id = task_id →
      (∃ g ∈ db.guests, g.task_id = task_id) →
      guest_start db task_id name label manager now commitOk
        = Except.ok (none, db)) ∧
    (∀ gid db', guest_start db task_id name label manager now commitOk
        = Except.ok (some gid, db') →
      (db'.guests.filter (fun g => g.task_id == task_id)).length = 1 ∧
      ∀ n2 l2 m2 now2 c2,
        guest_start db' task_id n2 l2 m2 now2 c2 = Except.ok (none, db')) := by
  refine ⟨?_, ?_, ?_⟩
  · intro hnone
    have hf : db.tasks.find? (fun t => t.id == task_id) = none := by
      rw [List.find?_eq_none]
      intro t ht
      simpa using hnone t ht
    simp [guest_start, hf]
  · intro t0 ht0 hid hg
    cases hf : db.tasks.find? (fun t => t.id == task_id) with
    | none =>
        rw [List.find?_eq_none] at hf
        exact absurd (by simpa using hid) (hf t0 ht0)
    | some w =>
        have ha : db.guests.any (fun g => g.task_id == task_id) = true := by
          rw [List.any_eq_true]

          obtain ⟨g, hgin, hgid⟩ := hg
          exact ⟨g, hgin, by simpa using hgid⟩
        simp [guest_start, hf, ha]
  · intro gid db' h
    cases hf : db.tasks.find? (fun t => t.id == task_id) with
    | none => simp [guest_start, hf] at h
    | some w =>
        cases ha : db.guests.any (fun g => g.task_id == task_id) with
        | true => simp [guest_start, hf, ha] at h
        | false =>
            cases hc : commitOk with
            | false => rw [hc] at h; simp [guest_start, hf, ha] at h
            | true =>
                rw [hc] at h
                simp only [guest_start, hf, ha, Bool.false_eq_true, if_neg,
                  not_false_iff, if_pos, Except.ok.injEq, Prod.mk.injEq,
                  Option.some.injEq] at h
                obtain ⟨hgid, hdb⟩ := h
                subst hdb
                have hall : ∀ g ∈ db.guests, (g.task_id == task_id) = false := by
                  intro g hgin
                  simpa using List.any_eq_false.mp ha g hgin
                constructor
                · rw [List.filter_append]
                  have h1 : db.guests.filter (fun g => g.task_id == task_id)
                      = [] := by
                    rw [List.filter_eq_nil_iff]
                    intro g hgin
                    simp [hall g hgin]
                  rw [h1]
                  simp
                · intro n2 l2 m2 now2 c2
                  have ha2 : ((db.guests ++
                      [({ id := freshGuestId db, name := name, label := label,
                          manager := manager, started_on := now,
                          shutdown_on := none,
                          task_id := task_id } : Guest)]).any
                        (fun g => g.task_id == task_id)) = true := by
                    rw [List.any_eq_true]
                    exact ⟨_, List.mem_append_right _
                      (List.mem_singleton.mpr rfl), by simp⟩
                  simp [guest_start, hf, ha2]

def dbG : DB := ⟨[taskA], [], []⟩

def guestG : Guest :=
  { id := 1, name := "n", label := "l", manager := "m", started_on := 5
    shutdown_on := none, task_id := 1 }

def dbG' : DB := ⟨[taskA], [guestG], []⟩

/-- Witness for C7: missing task fails; with task 1 present a first
`guest_start` succeeds, leaving one linked Guest, and a second one fails. -/
theorem guest_start_unique_witness :
    guest_start (DB.mk [] [] []) 1 "n" "l" "m" 5 true
      = Except.error PyError.attributeError ∧
    guest_start dbG' 1 "x" "y" "z" 6 true = Except.ok (none, dbG') ∧
    ((dbG'.guests.filter (fun g => g.task_id == 1)).length = 1 ∧
      ∀ n2 l2 m2 now2 c2,
        guest_start dbG' 1 n2 l2 m2 now2 c2 = Except.ok (none, dbG')) :=
  ⟨(guest_start_unique (DB.mk [] [] []) 1 "n" "l" "m" 5 true).1 (by simp),
   (guest_start_unique dbG' 1 "x" "y" "z" 6 true).2.1 taskA
     (by simp [dbG']) (by decide) ⟨guestG, by simp [dbG'], by decide⟩,
   (guest_start_unique dbG 1 "n" "l" "m" 5 true).2.2 1 dbG' (by decide)⟩

/-- Guest whose `shutdown_on` is already set, to time 3. -/
def guestDone : Guest :=
  { id := 1, name := "n", label := "l", manager := "m", started_on := 0
    shutdown_on := some 3, task_id := 1 }

/-- Counterexample to C8: `guest_stop` on a store with no guest 1 raises
(the primary-key lookup yields no row and the attribute assignment fails)
instead of returning normally, and on a guest whose `shutdown_on` is
already 3 it overwrites the value with the current time 7. -/
theorem guest_stop_raises_and_overwrites_cex :
    guest_stop (DB.mk [] [] []) 1 5 true
      = Except.error PyError.attributeError ∧
    guestDone.shutdown_on = some 3 ∧
    guest_stop (DB.mk [] [guestDone] []) 1 7 true
      = Except.ok (DB.mk [] [{ guestDone with shutdown_on := some 7 }] []) ∧
    some 7 ≠ some (3 : Nat) := by decide

/-- **C8** (amended) `guest_stop` raises when the guest id does not exist;
when the guest exists it sets `shutdown_on` to the current time
unconditionally — overwriting a value that was already set — and a failed
commit is rolled back with the call still returning normally. -/
theorem guest_stop_behavior (db : DB) (guest_id now : Nat) (commitOk : Bool) :
    ((∀ g ∈ db.guests, g.id ≠ guest_id) →
      guest_stop db guest_id now commitOk
        = Except.error PyError.attributeError) ∧
    (∀ g0, g0 ∈ db.guests → g0.id = guest_id →
      guest_stop db guest_id now true
        = Except.ok
            { db with
                guests := db.guests.map fun g =>
                  if g.id == guest_id then { g with shutdown_on := some now }
                  else g } ∧
      guest_stop db guest_id now false = Except.ok db) := by
  constructor
  · intro hnone
    have hf : db.guests.find? (fun g => g.id == guest_id) = none := by
      rw [List.find?_eq_none]
      intro g hgin
      simpa using hnone g hgin
    simp [guest_stop, hf]
  · intro g0 hg0 hid
    cases hf : db.guests.find? (fun g => g.id == guest_id) with
    | none =>
        rw [List.find?_eq_none] at hf
        exact absurd (by simpa using hid) (hf g0 hg0)
    | some w => exact ⟨by simp [guest_stop, hf], by simp [guest_stop, hf]⟩

/-- Witness for C8 (amended): raising on a missing guest, overwrite of
`shutdown_on`, no-op rollback. -/
theorem guest_stop_behavior_witness :
    guest_stop (DB.mk [] [] []) 2 5 true
      = Except.error PyError.attributeError ∧
    (guest_stop (DB.mk [] [guestDone] []) 1 7 true
      = Except.ok
          { DB.mk [] [guestDone] [] with
              guests := [guestDone].map fun g =>
                if g.id == 1 then { g with shutdown_on := some 7 } else g } ∧
      guest_stop (DB.mk [] [guestDone] []) 1 7 false
        = Except.ok (DB.mk [] [guestDone] [])) :=
  ⟨(guest_stop_behavior (DB.mk [] [] []) 2 5 true).1 (by simp),
   (guest_stop_behavior (DB.mk [] [guestDone] []) 1 7 true).2 guestDone
     (by simp) (by decide)⟩

/-- The file object used by concrete sample fixtures. -/
def objX : FileObj :=
  { file_path := "/x", md5 := "m", crc32 := "c", sha1 := "a", sha256 := "b"
    sha512 := "d", file_size := 1, file_type := "t", ssdeep := none }

/-- **C9** `add_path` on an empty path or a path that does not exist returns
no task id and leaves the store unchanged: no Task row and no Sample row is
created. -/
theorem add_path_rejects_missing (it : Nat) (fs : List String)
    (hashOf : String → FileObj) (db : DB) (fp : String) (timeout : Int)
    (p o : Option String) (pr : Int) (c m pf : Option String) (now : Nat)
    (tc : Bool) (h : fp = "" ∨ fp ∉ fs) :
    add_path it fs hashOf db fp timeout p o pr c m pf now tc = (none, db) := by
  unfold add_path
  rcases h with h | h
  · subst h; rfl
  · have hc : fs.contains fp = false := by simpa using h
    have hcond : (fp == "" || !(fs.contains fp)) = true := by
      rw [hc]; simp
    rw [hcond]
    simp

/-- Witness for C9 at a nonexistent path. -/
theorem add_path_rejects_missing_witness :
    add_path 0 ["a"] (fun _ => objX) (DB.mk [] [] []) "nope" 0 none none 1
      none none none 0 true = (none, DB.mk [] [] []) :=
  add_path_rejects_missing 0 ["a"] (fun _ => objX) (DB.mk [] [] []) "nope" 0
    none none 1 none none none 0 true (Or.inr (by decide))

/-! ### Atomicity of the mutating operations -/

/-- Counterexample to C3: on an empty store, `add` for a file whose task
commit fails returns no id — yet the Sample row committed by the first,
separate transaction remains behind in the store. -/
theorem addFile_failed_commit_keeps_sample_cex :
    (addFile 0 (DB.mk [] [] []) objX 0 none none 1 none none none 0 false).1
      = none ∧
    (addFile 0 (DB.mk [] [] []) objX 0 none none 1 none none none 0 false).2
      = DB.mk [] [] [newSampleOf (DB.mk [] [] []) objX] ∧
    DB.mk [] [] [newSampleOf (DB.mk [] [] []) objX] ≠ DB.mk [] [] [] := by
  decide

/-- **C3** (amended) Each individual commit is atomic: when a commit fails
the enclosing transaction is rolled back and the operation reports failure
(`guest_stop` merely returns without a signal). `add` for a URL, `complete`,
`guest_start` and the claim step leave the store unchanged on commit
failure; but `add` for a File spans two transactions — a failed task commit
leaves no Task row and returns no id, while the Sample row committed by the
first transaction persists. -/
theorem per_commit_rollback :
    (∀ db, fetch_and_process db false = (none, db)) ∧
    (∀ db tid s now t0, t0 ∈ db.tasks → t0.id = tid →
      complete db tid s now false = Except.ok (false, db)) ∧
    (∀ db tid n l m now,
      guest_start db tid n l m now false
        = Except.error PyError.attributeError ∨
      guest_start db tid n l m now false = Except.ok (none, db)) ∧
    (∀ db gid now g0, g0 ∈ db.guests → g0.id = gid →
      guest_stop db gid now false = Except.ok db) ∧
    (∀ it db url timeout p o pr c m pf now,
      addUrl it db url timeout p o pr c m pf now false = (none, db)) ∧
    (∀ it db obj timeout p o pr c m pf now,
      (addFile it db obj timeout p o pr c m pf now false).1 = none ∧
      (addFile it db obj timeout p o pr c m pf now false).2.tasks
        = db.tasks ∧
      ((∀ s ∈ db.samples, sampleMatches s obj = false) →
        (addFile it db obj timeout p o pr c m pf now false).2.samples
          = db.samples ++ [newSampleOf db obj])) := by
  refine ⟨?_, ?_, ?_, ?_, ?_, ?_⟩
  · intro db
    unfold fetch_and_process
    cases selectPending db.tasks <;> simp
  · intro db tid s now t0 ht0 hid
    cases hf : db.tasks.find? (fun t => t.id == tid) with
    | none =>
        rw [List.find?_eq_none] at hf
        exact absurd (by simpa using hid) (hf t0 ht0)
    | some w => simp [complete, hf]
  · intro db tid n l m now
    cases hf : db.tasks.find? (fun t => t.id == tid) with
    | none => exact Or.inl (by simp [guest_start, hf])
    | some w =>
        cases ha : db.guests.any (fun g => g.task_id == tid) with
        | true => exact Or.inr (by simp [guest_start, hf, ha])
        | false => exact Or.inr (by simp [guest_start, hf, ha])
  · intro db gid now g0 hg0 hid
    cases hf : db.guests.find? (fun g => g.id == gid) with
    | none =>
        rw [List.find?_eq_none] at hf
        exact absurd (by simpa using hid) (hf g0 hg0)
    | some w => simp [guest_stop, hf]
  · intro it db url timeout p o pr c m pf now
    rfl
  · intro it db obj timeout p o pr c m pf now
    refine ⟨rfl, ?_, ?_⟩
    · unfold addFile sampleIdForFile
      cases h : db.samples.any (fun s => sampleMatches s obj) <;> simp [h]
    · intro hnone
      have ha : db.samples.any (fun s => sampleMatches s obj) = false := by
        rw [List.any_eq_false]
        intro s hs
        simp [hnone s hs]
      simp [addFile, sampleIdForFile, ha]

/-- Witness for C3 (amended) at concrete stores. -/
theorem per_commit_rollback_witness :
    fetch_and_process (DB.mk [taskP] [] []) false
      = (none, DB.mk [taskP] [] []) ∧
    complete (DB.mk [taskP] [] []) 7 true 9 false
      = Except.ok (false, DB.mk [taskP] [] []) ∧
    guest_stop (DB.mk [] [guestDone] []) 1 9 false
      = Except.ok (DB.mk [] [guestDone] []) ∧
    addUrl 0 (DB.mk [] [] []) "u" 0 none none 1 none none none 0 false
      = (none, DB.mk [] [] []) ∧
    (addFile 0 (DB.mk [] [] []) objX 0 none none 1 none none none 0
        false).2.samples
      = (DB.mk [] [] []).samples ++ [newSampleOf (DB.mk [] [] []) objX] :=
  ⟨per_commit_rollback.1 (DB.mk [taskP] [] []),
   per_commit_rollback.2.1 (DB.mk [taskP] [] []) 7 true 9 taskP (by simp)
     (by decide),
   per_commit_rollback.2.2.2.1 (DB.mk [] [guestDone] []) 1 9 guestDone
     (by simp) (by decide),
   per_commit_rollback.2.2.2.2.1 0 (DB.mk [] [] []) "u" 0 none none 1 none
     none none 0,
   (per_commit_rollback.2.2.2.2.2 0 (DB.mk [] [] []) objX 0 none none 1 none
     none none 0).2.2 (by simp)⟩

/-! ### Sample deduplication -/

def sHash1 : Sample :=
  { id := 1, file_size := 1, file_type := "t", md5 := "m", crc32 := "c1"
    sha1 := "a1", sha256 := "b1", sha512 := "d1", ssdeep := none }

def sHash2 : Sample :=
  { id := 2, file_size := 1, file_type := "t", md5 := "m", crc32 := "c2"
    sha1 := "a2", sha256 := "b2", sha512 := "d2", ssdeep := none }

def objColl : FileObj :=
  { file_path := "/f", md5 := "m", crc32 := "c2", sha1 := "a2"
    sha256 := "b2", sha512 := "d2", file_size := 1, file_type := "t"
    ssdeep := none }

def dbColl : DB := ⟨[], [], [sHash1, sHash2]⟩

/-- Counterexample to C2: two persisted Samples share the md5 "m" with
different full hash tuples (the unique index only constrains the 5-tuple,
and md5 collisions between different contents exist). Inserting a file
whose tuple equals sample 2's hits the unique index, but the fallback
re-queries by md5 alone and takes the first row, so the new task is linked
to sample 1 — not to the existing Sample carrying the inserted tuple
(id 2). -/
theorem add_requeries_by_md5_only_cex :
    (dbColl.samples.filter (fun s => sampleMatches s objColl)).map Sample.id
      = [2] ∧
    ((addFile 0 dbColl objColl 0 none none 1 none none none 0
        true).2.tasks.map Task.sample_id) = [some 1] := by decide

lemma eq_singleton_of_mem_of_length_le_one {α : Type} {l : List α} {a : α}
    (ha : a ∈ l) (h1 : l.length ≤ 1) : l = [a] := by
  cases l with
  | nil => cases ha
  | cons x xs =>
      cases xs with
      | nil => rw [List.mem_singleton] at ha; rw [ha]
      | cons y ys => simp at h1

lemma newSampleOf_matches (db : DB) (obj : FileObj) :
    sampleMatches (newSampleOf db obj) obj = true := by
  simp [sampleMatches, newSampleOf]

lemma sampleMatches_md5 {s : Sample} {obj : FileObj}
    (h : sampleMatches s obj = true) : s.md5 = obj.md5 := by
  simp only [sampleMatches, Bool.and_eq_true, beq_iff_eq] at h
  exact h.1.1.1.1

lemma sampleIdForFile_dup (db : DB) (obj : FileObj) (s1 : Sample)
    (hdup : db.samples.any (fun s => sampleMatches s obj) = true)
    (hfind : db.samples.find? (fun s => s.md5 == obj.md5) = some s1) :
    sampleIdForFile db obj = (s1.id, db) := by
  simp [sampleIdForFile, hdup, hfind]

lemma sampleIdForFile_new (db : DB) (obj : FileObj)
    (hdup : db.samples.any (fun s => sampleMatches s obj) = false) :
    sampleIdForFile db obj
      = ((newSampleOf db obj).id,
         { db with samples := db.samples ++ [newSampleOf db obj] }) := by
  simp [sampleIdForFile, hdup]

lemma addFile_commit_eq (it : Nat) (db : DB) (obj : FileObj) (timeout : Int)
    (p o : Option String) (pr : Int) (c m pf : Option String) (now : Nat) :
    addFile it db obj timeout p o pr c m pf now true
      = (some (newTaskRow it (sampleIdForFile db obj).2 obj.file_path "file"
            timeout p o pr c m pf (some (sampleIdForFile db obj).1)).id,
         { (sampleIdForFile db obj).2 with
             tasks := (sampleIdForFile db obj).2.tasks
               ++ [newTaskRow it (sampleIdForFile db obj).2 obj.file_path
                     "file" timeout p o pr c m pf
                     (some (sampleIdForFile db obj).1)] }) := rfl

/-- **C2** (amended) On inserting a Sample whose 5-hash tuple already
exists, `add` discards its attempted insert, but re-queries by `md5` alone
and uses the first row whose md5 matches. Provided no distinct Sample
shares the submitted file's md5 (no md5 collision among persisted rows),
this is the existing tuple-matching Sample: exactly one matching Sample row
is persisted, a racing second dedup call returns the same id without
growing the store, and the created Task is linked to that id. -/
theorem addFile_dedup_converges (db : DB) (obj : FileObj)
    (hmd5 : ∀ s ∈ db.samples, s.md5 = obj.md5 → sampleMatches s obj = true)
    (hone : (db.samples.filter fun s => sampleMatches s obj).length ≤ 1) :
    (((sampleIdForFile db obj).2.samples.filter
        fun s => sampleMatches s obj).map Sample.id)
      = [(sampleIdForFile db obj).1] ∧
    (∀ db2, db2.samples = (sampleIdForFile db obj).2.samples →
      sampleIdForFile db2 obj = ((sampleIdForFile db obj).1, db2)) ∧
    (∀ it timeout p o pr c m pf now,
      ∃ task, addFile it db obj timeout p o pr c m pf now true
        = (some task.id,
           { (sampleIdForFile db obj).2 with tasks := db.tasks ++ [task] }) ∧
        task.sample_id = some (sampleIdForFile db obj).1) := by
  cases hdup : db.samples.any (fun s => sampleMatches s obj) with
  | true =>
      obtain ⟨s0, hs0in, hs0m⟩ := List.any_eq_true.mp hdup
      cases hfind : db.samples.find? (fun s => s.md5 == obj.md5) with
      | none =>
          rw [List.find?_eq_none] at hfind
          exact absurd (by simpa using sampleMatches_md5 hs0m)
            (hfind s0 hs0in)
      | some s1 =>
          have hs1in := List.mem_of_find?_eq_some hfind
          have hs1md5 : s1.md5 = obj.md5 := by
            simpa using List.find?_some hfind
          have hs1m : sampleMatches s1 obj = true := hmd5 s1 hs1in hs1md5
          have hsd : sampleIdForFile db obj = (s1.id, db) :=
            sampleIdForFile_dup db obj s1 hdup hfind
          refine ⟨?_, ?_, ?_⟩
          · rw [hsd]
            have hfil : db.samples.filter (fun s => sampleMatches s obj)
                = [s1] :=
              eq_singleton_of_mem_of_length_le_one
                (List.mem_filter.mpr ⟨hs1in, hs1m⟩) hone
            rw [hfil]
            rfl
          · intro db2 hdb2
            rw [hsd] at hdb2 ⊢
            have hdup2 : db2.samples.any (fun s => sampleMatches s obj)
                = true := by rw [hdb2]; exact hdup
            have hfind2 : db2.samples.find? (fun s => s.md5 == obj.md5)
                = some s1 := by rw [hdb2]; exact hfind
            exact sampleIdForFile_dup db2 obj s1 hdup2 hfind2
          · intro it timeout p o pr c m pf now
            refine ⟨newTaskRow it db obj.file_path "file" timeout p o pr c m
              pf (some s1.id), ?_, ?_⟩
            · rw [addFile_commit_eq, hsd]
            · rw [hsd]
              exact rfl
  | false =>
      have hsd := sampleIdForFile_new db obj hdup
      have hnomd5 : ∀ s ∈ db.samples, (s.md5 == obj.md5) = false := by
        intro s hs
        by_contra hbe
        have hmd : s.md5 = obj.md5 := by
          cases hb : (s.md5 == obj.md5) with
          | false => exact absurd hb hbe
          | true => simpa using hb
        have := hmd5 s hs hmd
        exact absurd this (by simpa using List.any_eq_false.mp hdup s hs)
      have hfilnil : db.samples.filter (fun s => sampleMatches s obj)
          = [] := by
        rw [List.filter_eq_nil_iff]
        intro s hs
        simpa using List.any_eq_false.mp hdup s hs
      refine ⟨?_, ?_, ?_⟩
      · rw [hsd]
        simp only [List.filter_append, hfilnil, List.nil_append]
        rw [List.filter_cons_of_pos (by simpa using newSampleOf_matches db obj)]
        rfl
      · intro db2 hdb2
        rw [hsd] at hdb2 ⊢
        have hdup2 : db2.samples.any (fun s => sampleMatches s obj)
            = true := by
          rw [hdb2, List.any_eq_true]
          exact ⟨newSampleOf db obj,
            List.mem_append_right _ (List.mem_singleton.mpr rfl),
            newSampleOf_matches db obj⟩
        have hfind2 : db2.samples.find? (fun s => s.md5 == obj.md5)
            = some (newSampleOf db obj) := by
          rw [hdb2, List.find?_append]
          have h1 : db.samples.find? (fun s => s.md5 == obj.md5) = none := by
            rw [List.find?_eq_none]
            intro s hs
            simp [hnomd5 s hs]
          rw [h1]
          simp [newSampleOf]
        exact sampleIdForFile_dup db2 obj (newSampleOf db obj) hdup2 hfind2
      · intro it timeout p o pr c m pf now
        refine ⟨newTaskRow it
          { db with samples := db.samples ++ [newSampleOf db obj] }
          obj.file_path "file" timeout p o pr c m pf
          (some (newSampleOf db obj).id), ?_, ?_⟩
        · rw [addFile_commit_eq, hsd]
        · rw [hsd]
          exact rfl

/-- Witness for C2 (amended): on a store with no samples, the first insert
persists one matching row, a second dedup call returns the same id, and the
task links to it. -/
theorem addFile_dedup_converges_witness :
    ((((sampleIdForFile (DB.mk [] [] []) objX).2.samples.filter
        fun s => sampleMatches s objX).map Sample.id)
      = [(sampleIdForFile (DB.mk [] [] []) objX).1]) ∧
    (∀ db2, db2.samples = (sampleIdForFile (DB.mk [] [] []) objX).2.samples →
      sampleIdForFile db2 objX
        = ((sampleIdForFile (DB.mk [] [] []) objX).1, db2)) ∧
    (∀ it timeout p o pr c m pf now,
      ∃ task, addFile it (DB.mk [] [] []) objX timeout p o pr c m pf now true
        = (some task.id,
           { (sampleIdForFile (DB.mk [] [] []) objX).2 with
               tasks := (DB.mk [] [] []).tasks ++ [task] }) ∧
        task.sample_id = some (sampleIdForFile (DB.mk [] [] []) objX).1) :=
  addFile_dedup_converges (DB.mk [] [] []) objX (by simp) (by simp)

/-! ### Reporter: execution order and isolation -/

lemma runModsAux_spec {α : Type} (addr : Nat) (v0 : α) :
    ∀ (ms : List (RepModule α)) (h : Heap α), h.read addr = some v0 →
      (runModsAux h addr ms).2 = ms.map (fun m => (m.order, v0)) ∧
      (runModsAux h addr ms).1.read addr = some v0
  | [], h, hr => ⟨rfl, hr⟩
  | m :: ms, h, hr => by
      have haddr : addr < h.cells.length := by
        have hr' : h.cells[addr]? = some v0 := hr
        obtain ⟨hlt, -⟩ := List.getElem?_eq_some.mp hr'
        exact hlt
      have hstep : runReport m h addr
          = (⟨(h.cells ++ [v0]).set h.cells.length (m.mutate v0)⟩,
             some (m.order, v0)) := by
        unfold runReport
        rw [hr]
        rfl
      have hkeep : (Heap.mk ((h.cells ++ [v0]).set h.cells.length
          (m.mutate v0)) : Heap α).read addr = some v0 := by
        show ((h.cells ++ [v0]).set h.cells.length (m.mutate v0))[addr]?
          = some v0
        rw [List.getElem?_set_ne (ne_of_gt haddr), List.getElem?_append,
          if_pos haddr]
        exact hr
      obtain ⟨ih1, ih2⟩ := runModsAux_spec addr v0 ms _ hkeep
      unfold runModsAux
      rw [hstep]
      dsimp only
      refine ⟨?_, ih2⟩
      rw [ih1]
      rfl

/-- **C10** `Reporter.run` executes the loaded reporting modules in
ascending order of their `order` attribute (every module exactly once), and
hands each module a deep copy of the caller's results object: every module
receives the original value — no mutation a module performs on its copy is
visible to any later module — and the caller's results object is unchanged
when `run` returns. -/
theorem reporter_run_order_and_isolation {α : Type}
    (mods : List (RepModule α)) (h : Heap α) (addr : Nat) (v0 : α)
    (hv : h.read addr = some v0) :
    ((reporterRun mods h addr).2.map Prod.fst).Sorted (· ≤ ·) ∧
    ((reporterRun mods h addr).2.map Prod.fst).Perm
      (mods.map RepModule.order) ∧
    (∀ p ∈ (reporterRun mods h addr).2, p.2 = v0) ∧
    (reporterRun mods h addr).1.read addr = some v0 := by
  haveI : IsTotal (RepModule α) (fun a b => a.order ≤ b.order) :=
    ⟨fun a b => le_total a.order b.order⟩
  haveI : IsTrans (RepModule α) (fun a b => a.order ≤ b.order) :=
    ⟨fun a b c hab hbc => le_trans hab hbc⟩
  obtain ⟨h2, h1⟩ := runModsAux_spec addr v0
    (mods.insertionSort fun a b => a.order ≤ b.order) h hv
  unfold reporterRun
  rw [h2]
  refine ⟨?_, ?_, ?_, h1⟩
  · rw [List.map_map]
    exact List.Pairwise.map _ (fun a b hab => hab)
      (List.sorted_insertionSort (fun a b : RepModule α =>
        a.order ≤ b.order) mods)
  · rw [List.map_map]
    exact (List.perm_insertionSort
      (fun a b : RepModule α => a.order ≤ b.order) mods).map _
  · intro p hp
    simp only [List.mem_map] at hp
    obtain ⟨mm, -, hmm⟩ := hp
    rw [← hmm]

/-- Two modules with orders 2 and 1 over a one-cell heap holding 7. -/
def modsW : List (RepModule Nat) :=
  [⟨2, fun x => x + 1⟩, ⟨1, fun x => x * 2⟩]

/-- Witness for C10 on a concrete heap and module list. -/
theorem reporter_run_order_and_isolation_witness :
    ((reporterRun modsW ⟨[7]⟩ 0).2.map Prod.fst).Sorted (· ≤ ·) ∧
    ((reporterRun modsW ⟨[7]⟩ 0).2.map Prod.fst).Perm
      (modsW.map RepModule.order) ∧
    (∀ p ∈ (reporterRun modsW ⟨[7]⟩ 0).2, p.2 = 7) ∧
    (reporterRun modsW ⟨[7]⟩ 0).1.read 0 = some 7 :=
  reporter_run_order_and_isolation modsW ⟨[7]⟩ 0 7 rfl

end Cuckoo
